import Mathlib

/-!
Verification of the radiology-dataset loader (`utils/dataset.py`,
`utils/transforms.py`): a shallow embedding of the Python code, with
Python strings modelled as `List Char`.
-/

/-- Python strings, modelled as lists of characters. -/
abbrev PyStr := List Char

/-- Python truthiness of an `Optional[str]`: `None` and `""` are falsy. -/
def pyTruthy : Option PyStr → Bool
  | none => false
  | some s => !s.isEmpty

/-- The ASCII whitespace characters stripped by Python's `str.strip()`. -/
def isPySpace (c : Char) : Bool :=
  c == ' ' || c == '\t' || c == '\n' || c == '\r' || c == '\x0b' || c == '\x0c'

/-- Strip characters satisfying `p` from both ends of a string. -/
def pyStripWith (p : Char → Bool) (s : PyStr) : PyStr :=
  ((s.dropWhile p).reverse.dropWhile p).reverse

/-- Python `str.strip()` (whitespace from both ends). -/
def pyStrip (s : PyStr) : PyStr := pyStripWith isPySpace s

/-- Python `str.strip("-")` (hyphens from both ends). -/
def pyStripDash (s : PyStr) : PyStr := pyStripWith (fun c => c == '-') s

/-- Python `sep.join(parts)`. -/
def pyJoin (sep : PyStr) : List PyStr → PyStr
  | [] => []
  | [s] => s
  | s :: rest => s ++ sep ++ pyJoin sep rest

/-- Python `str.endswith(suffix)`. -/
def pyEndsWith (s suffix : PyStr) : Bool := List.isSuffixOf suffix s

/-- Python f-string rendering of an `Optional[str]` value: `None` prints
as the four characters `"None"`. -/
def pyFmtOpt : Option PyStr → PyStr
  | none => "None".data
  | some s => s

/-- Split a string on a character, keeping empty segments (as Python
`str.split(c)` does). -/
def splitOnChar (c : Char) (s : PyStr) : List PyStr :=
  s.foldr
    (fun x acc =>
      match acc with
      | r :: rs => if x == c then [] :: r :: rs else (x :: r) :: rs
      | [] => [[x]])
    [[]]

/-- POSIX `os.path.basename`: the part after the last slash. -/
def osPathBasename (s : PyStr) : PyStr := (splitOnChar '/' s).getLastD []

/-- POSIX `os.path.join` for two components. -/
def osPathJoin (a b : PyStr) : PyStr :=
  if b.head? == some '/' then b
  else if a.isEmpty then b
  else if a.getLast? == some '/' then a ++ b
  else a ++ '/' :: b

/-- Lexicographic comparison of Python strings by code point
(the order used by Python `sorted` on `str`). -/
def pyStrLe : PyStr → PyStr → Bool
  | [], _ => true
  | _ :: _, [] => false
  | a :: as, b :: bs =>
    if a.toNat < b.toNat then true
    else if b.toNat < a.toNat then false
    else pyStrLe as bs

/-- `pyStrLe` as a decidable relation, for use with sorting. -/
def PyStrLeRel (a b : PyStr) : Prop := pyStrLe a b = true

instance : DecidableRel PyStrLeRel := fun a b => by
  unfold PyStrLeRel; infer_instance

/-- An XML element as exposed by `xml.etree.ElementTree`: a tag, optional
text, and an ordered list of child elements. -/
inductive XmlNode where
  | elem (tag : PyStr) (text : Option PyStr) (children : List XmlNode)

/-- The tag of an element. -/
def XmlNode.tag : XmlNode → PyStr
  | .elem t _ _ => t

/-- The `.text` attribute of an element (`None` when the element holds no
text). -/
def XmlNode.text : XmlNode → Option PyStr
  | .elem _ tx _ => tx

/-- The child elements, in document order. -/
def XmlNode.children : XmlNode → List XmlNode
  | .elem _ _ cs => cs

/-- `Element.findall(tag)`: all direct children with the given tag, in
document order. -/
def XmlNode.findall (e : XmlNode) (t : PyStr) : List XmlNode :=
  e.children.filter (fun c => c.tag == t)

/-- `Element.find(tag)`: the first direct child with the given tag. -/
def XmlNode.find (e : XmlNode) (t : PyStr) : Option XmlNode :=
  (e.findall t).head?

mutual

/-- All strict descendants of an element, in document (preorder) order. -/
def XmlNode.descendants : XmlNode → List XmlNode
  | .elem _ _ cs => XmlNode.descList cs

/-- Descendants of a forest of elements, in document order. -/
def XmlNode.descList : List XmlNode → List XmlNode
  | [] => []
  | c :: cs => c :: (XmlNode.descendants c ++ XmlNode.descList cs)

end

/-- `Element.find('.//' + tag)`: the first descendant with the given tag,
in document order. -/
def XmlNode.findDesc (e : XmlNode) (t : PyStr) : Option XmlNode :=
  (e.descendants.filter (fun c => c.tag == t)).head?

/-- The exceptions the dataset code can raise: `IndexError` from list
indexing, an `ET.ParseError`/`FileNotFoundError` from `ET.parse`, and an
I/O or decoding failure from `Image.open(...).convert("RGB")`. -/
inductive PyErr where
  | indexError
  | xmlParseError (path : PyStr)
  | imageError (path : PyStr)
deriving DecidableEq

/-- Python list indexing `xs[i]` with an `int` index: negative indices
count from the end; out-of-range indices raise `IndexError`. -/
def pyListGet {α : Type} (xs : List α) (i : Int) : Except PyErr α :=
  let j : Int := if i < 0 then i + xs.length else i
  if 0 ≤ j then
    match xs[j.toNat]? with
    | some a => .ok a
    | none => .error .indexError
  else .error .indexError

/-- The read-only environment: `ET.parse` of an XML file (`none` when the
file is missing or unparsable, i.e. the call raises) and
`Image.open(path).convert("RGB")` (`none` when the image file is missing
or not decodable, i.e. the call raises). -/
structure Fs (Img : Type) where
  xmlFile : PyStr → Option XmlNode
  loadImage : PyStr → Option Img

/-- The result of `_parse_xml`: report text, metadata (an
insertion-ordered key/value mapping) and image paths. -/
structure ParseResult where
  report : PyStr
  metadata : List (PyStr × PyStr)
  image_paths : List PyStr
deriving DecidableEq

/-- The sample dictionary returned by `__getitem__`. -/
structure Sample (Img : Type) where
  images : List Img
  report : PyStr
  metadata : List (PyStr × PyStr)
deriving DecidableEq

/-- The `RadiologyDataset` object state: both directory paths, the
optional transform, and the sorted list of XML file paths built in
`__init__`. -/
structure RadiologyDataset (Img : Type) where
  xml_dir : PyStr
  image_dir : PyStr
  transform : Option (Img → Img)
  xml_files : List PyStr

/-- `RadiologyDataset.__init__`: store the arguments and set `xml_files`
to `sorted([os.path.join(xml_dir, f) for f in os.listdir(xml_dir) if
f.endswith('.xml')])`. The directory listing is passed in as `listdir`. -/
def RadiologyDataset.init (Img : Type) (xml_dir image_dir : PyStr)
    (transform : Option (Img → Img)) (listdir : List PyStr) :
    RadiologyDataset Img :=
  { xml_dir := xml_dir
    image_dir := image_dir
    transform := transform
    xml_files :=
      List.insertionSort PyStrLeRel
        ((listdir.filter (fun f => pyEndsWith f ".xml".data)).map
          (fun f => osPathJoin xml_dir f)) }

/-- `RadiologyDataset.__len__`: `len(self.xml_files)`. -/
def RadiologyDataset.len {Img : Type} (d : RadiologyDataset Img) : Nat :=
  d.xml_files.length

/-- The date sub-field value used by `_parse_xml`:
`article_date_elem.find(tag).text if article_date_elem.find(tag) is not
None else ""`, rendered by the f-string (so a present element whose text
is `None` renders as `"None"`). -/
def dateField (ad : XmlNode) (tag : PyStr) : PyStr :=
  match ad.find tag with
  | some e => pyFmtOpt e.text
  | none => []

/-- The report block of `_parse_xml`: the stripped texts of the truthy
`AbstractText` children of the first `.//Abstract` element, joined with
single spaces. -/
def reportOf (root : XmlNode) : PyStr :=
  let report_texts : List PyStr :=
    match root.findDesc "Abstract".data with
    | none => []
    | some abstract =>
      (abstract.findall "AbstractText".data).filterMap
        (fun c =>
          match c.text with
          | some t => if t.isEmpty then none else some (pyStrip t)
          | none => none)
  pyJoin [' '] report_texts

/-- The `article_date` metadata entries of `_parse_xml` (empty when no
`.//ArticleDate` element exists). -/
def dateMeta (root : XmlNode) : List (PyStr × PyStr) :=
  match root.findDesc "ArticleDate".data with
  | none => []
  | some ad =>
    [("article_date".data,
      pyStripDash
        (dateField ad "Year".data ++ '-' ::
          (dateField ad "Month".data ++ '-' :: dateField ad "Day".data)))]

/-- The `title` metadata entries of `_parse_xml`. -/
def titleMeta (root : XmlNode) : List (PyStr × PyStr) :=
  match root.findDesc "ArticleTitle".data with
  | none => []
  | some te =>
    match te.text with
    | some t => if t.isEmpty then [] else [("title".data, pyStrip t)]
    | none => []

/-- The `specialty` metadata entries of `_parse_xml`. -/
def specialtyMeta (root : XmlNode) : List (PyStr × PyStr) :=
  match root.findDesc "specialty".data with
  | none => []
  | some se =>
    match se.text with
    | some t => if t.isEmpty then [] else [("specialty".data, pyStrip t)]
    | none => []

/-- The image-path block of `_parse_xml`: for each direct `parentImage`
child of the root, its `panel` child's `url` child with truthy text
contributes `os.path.join(image_dir, os.path.basename(url.text.strip()))`. -/
def imagePathsOf (image_dir : PyStr) (root : XmlNode) : List PyStr :=
  (root.findall "parentImage".data).filterMap
    (fun parent =>
      match parent.find "panel".data with
      | none => none
      | some panel =>
        match panel.find "url".data with
        | none => none
        | some url =>
          match url.text with
          | none => none
          | some t =>
            if t.isEmpty then none
            else some (osPathJoin image_dir (osPathBasename (pyStrip t))))

/-- The body of `_parse_xml` applied to a parsed XML root. -/
def parseRoot (image_dir : PyStr) (root : XmlNode) : ParseResult :=
  { report := reportOf root
    metadata := dateMeta root ++ titleMeta root ++ specialtyMeta root
    image_paths := imagePathsOf image_dir root }

/-- `RadiologyDataset._parse_xml` in state-passing form: `ET.parse` the
file, then extract report, metadata and image paths; the method performs
no attribute assignment, so the returned state is the input state. -/
def RadiologyDataset.parse_xmlSt {Img : Type} (d : RadiologyDataset Img)
    (fs : Fs Img) (xml_file : PyStr) :
    Except PyErr ParseResult × RadiologyDataset Img :=
  match fs.xmlFile xml_file with
  | none => (.error (.xmlParseError xml_file), d)
  | some root => (.ok (parseRoot d.image_dir root), d)

/-- `RadiologyDataset._parse_xml`, result component. -/
def RadiologyDataset.parse_xml {Img : Type} (d : RadiologyDataset Img)
    (fs : Fs Img) (xml_file : PyStr) : Except PyErr ParseResult :=
  (d.parse_xmlSt fs xml_file).1

/-- The image-loading loop of `__getitem__` in state-passing form: open
each path in order, convert, apply the transform if configured; the first
failing open raises and aborts the whole access. -/
def RadiologyDataset.loadImagesSt {Img : Type} (d : RadiologyDataset Img)
    (fs : Fs Img) : List PyStr → Except PyErr (List Img) × RadiologyDataset Img
  | [] => (.ok [], d)
  | p :: ps =>
    match fs.loadImage p with
    | none => (.error (.imageError p), d)
    | some img =>
      let img1 := match d.transform with
        | some t => t img
        | none => img
      match d.loadImagesSt fs ps with
      | (.error e, d1) => (.error e, d1)
      | (.ok rest, d1) => (.ok (img1 :: rest), d1)

/-- `RadiologyDataset.__getitem__` in state-passing form: index into
`xml_files` (Python list indexing), parse the XML, load and transform the
images, and bundle the sample; no statement assigns to the object, so the
state is threaded through unchanged. -/
def RadiologyDataset.getitemSt {Img : Type} (d : RadiologyDataset Img)
    (fs : Fs Img) (idx : Int) :
    Except PyErr (Sample Img) × RadiologyDataset Img :=
  match pyListGet d.xml_files idx with
  | .error e => (.error e, d)
  | .ok xml_file =>
    match d.parse_xmlSt fs xml_file with
    | (.error e, d1) => (.error e, d1)
    | (.ok data, d1) =>
      match d1.loadImagesSt fs data.image_paths with
      | (.error e, d2) => (.error e, d2)
      | (.ok images, d2) =>
        (.ok { images := images, report := data.report,
               metadata := data.metadata }, d2)

/-- `RadiologyDataset.__getitem__`, result component. -/
def RadiologyDataset.getitem {Img : Type} (d : RadiologyDataset Img)
    (fs : Fs Img) (idx : Int) : Except PyErr (Sample Img) :=
  (d.getitemSt fs idx).1

/-- The transform steps that `get_transforms` composes, with their numeric
parameters as exact rationals of the source literals. -/
inductive TransformOp where
  | randomHorizontalFlip (p : ℚ)
  | randomRotation (degrees : ℚ)
  | randomResizedCrop (size : ℕ) (scaleLo scaleHi : ℚ)
  | colorJitter (brightness contrast saturation hue : ℚ)
  | resize (h w : ℕ)
  | toTensor
  | normalize (mean std : List ℚ)
deriving DecidableEq

/-- `get_transforms` from `utils/transforms.py`: the augmenting pipeline
(random flip at the default probability 1/2, rotation up to ±15°, a
random resized crop to 224 with scale 0.5–1.0, color jitter 0.1, tensor
conversion, normalization) or the plain pipeline (resize to 224×224,
tensor conversion, normalization). -/
def get_transforms (augment : Bool) : List TransformOp :=
  if augment then
    [.randomHorizontalFlip (1/2), .randomRotation 15,
     .randomResizedCrop 224 (1/2) 1,
     .colorJitter (1/10) (1/10) (1/10) (1/10), .toTensor,
     .normalize [485/1000, 456/1000, 406/1000] [229/1000, 224/1000, 225/1000]]
  else
    [.resize 224 224, .toTensor,
     .normalize [485/1000, 456/1000, 406/1000] [229/1000, 224/1000, 225/1000]]

/-- An interpretation of the primitive image operations: the four random
steps additionally consume one random draw of type `R`; the three
deterministic steps are pure functions of the image. -/
structure Interp (Img R : Type) where
  flip : Img → R → Img
  rotate : ℚ → Img → R → Img
  resizedCrop : ℕ → ℚ → ℚ → Img → R → Img
  jitter : ℚ → ℚ → ℚ → ℚ → Img → R → Img
  resizeI : ℕ → ℕ → Img → Img
  toTensorI : Img → Img
  normalizeI : List ℚ → List ℚ → Img → Img

/-- Apply one transform step under an interpretation, drawing randomness
from the stream `g` at the current position; deterministic steps do not
consume randomness. -/
def applyOp {Img R : Type} (I : Interp Img R) (g : ℕ → R) :
    TransformOp → Img × ℕ → Img × ℕ
  | .randomHorizontalFlip _, (img, k) => (I.flip img (g k), k + 1)
  | .randomRotation d, (img, k) => (I.rotate d img (g k), k + 1)
  | .randomResizedCrop n lo hi, (img, k) => (I.resizedCrop n lo hi img (g k), k + 1)
  | .colorJitter b c s h, (img, k) => (I.jitter b c s h img (g k), k + 1)
  | .resize h w, (img, k) => (I.resizeI h w img, k)
  | .toTensor, (img, k) => (I.toTensorI img, k)
  | .normalize m s, (img, k) => (I.normalizeI m s img, k)

/-- Apply a whole pipeline (one call of the composed transform) to an
image, starting at position 0 of the randomness stream. -/
def applyPipeline {Img R : Type} (I : Interp Img R) (g : ℕ → R)
    (ops : List TransformOp) (img : Img) : Img :=
  (ops.foldl (fun st op => applyOp I g op st) (img, 0)).1

/-- Modelled from the spec's wording of the report rule: the join, with a
single space separator, of the stripped texts of the ordered
abstract-text children of the abstract container that have non-empty
text; empty when the container is absent. -/
def specReport (root : XmlNode) : PyStr :=
  match root.findDesc "Abstract".data with
  | none => []
  | some abstract =>
    pyJoin [' ']
      (((abstract.findall "AbstractText".data).filter
          (fun c => pyTruthy c.text)).map
        (fun c => pyStrip (c.text.getD [])))

/-- Modelled from the spec's wording of the image-path rule: one entry
per top-level parent-image element whose panel and panel-url with
non-empty text are present, namely the image directory joined with the
basename of the stripped URL text. -/
def specImagePaths (image_dir : PyStr) (root : XmlNode) : List PyStr :=
  (root.findall "parentImage".data).filterMap
    (fun parent =>
      (parent.find "panel".data).bind fun panel =>
        (panel.find "url".data).bind fun url =>
          if pyTruthy url.text then
            some (osPathJoin image_dir (osPathBasename (pyStrip (url.text.getD []))))
          else none)

theorem pyStrLe_total : ∀ a b : PyStr, pyStrLe a b = true ∨ pyStrLe b a = true
  | [], _ => Or.inl rfl
  | _ :: _, [] => Or.inr rfl
  | a :: as, b :: bs => by
    unfold pyStrLe
    rcases Nat.lt_trichotomy a.toNat b.toNat with h | h | h
    · left; rw [if_pos h]
    · rw [if_neg (by omega), if_neg (by omega), if_neg (by omega), if_neg (by omega)]
      exact pyStrLe_total as bs
    · right; rw [if_pos h]

theorem pyStrLe_trans : ∀ a b c : PyStr,
    pyStrLe a b = true → pyStrLe b c = true → pyStrLe a c = true
  | [], _, _, _, _ => rfl
  | _ :: _, [], _, h, _ => by simp [pyStrLe] at h
  | _ :: _, _ :: _, [], _, h => by simp [pyStrLe] at h
  | a :: as, b :: bs, c :: cs, h1, h2 => by
    unfold pyStrLe at h1 h2 ⊢
    rcases Nat.lt_trichotomy a.toNat b.toNat with hab | hab | hab
    · rcases Nat.lt_trichotomy b.toNat c.toNat with hbc | hbc | hbc
      · rw [if_pos (by omega)]
      · rw [if_pos (by omega)]
      · rw [if_neg (by omega), if_pos hbc] at h2
        simp at h2
    · rw [if_neg (by omega), if_neg (by omega)] at h1
      rcases Nat.lt_trichotomy b.toNat c.toNat with hbc | hbc | hbc
      · rw [if_pos (by omega)]
      · rw [if_neg (by omega), if_neg (by omega)] at h2
        rw [if_neg (by omega), if_neg (by omega)]
        exact pyStrLe_trans as bs cs h1 h2
      · rw [if_neg (by omega), if_pos hbc] at h2
        simp at h2
    · rw [if_neg (by omega), if_pos hab] at h1
      simp at h1

instance : IsTotal PyStr PyStrLeRel := ⟨fun a b => pyStrLe_total a b⟩

instance : IsTrans PyStr PyStrLeRel := ⟨fun a b c => pyStrLe_trans a b c⟩

theorem pyListGet_oob {α : Type} (xs : List α) (i : Int)
    (h : (xs.length : Int) ≤ i ∨ i < -(xs.length : Int)) :
    pyListGet xs i = .error .indexError := by
  simp only [pyListGet]
  rcases h with h | h
  · rw [if_neg (show ¬ i < 0 by omega), if_pos (show (0:Int) ≤ i by omega),
      List.getElem?_eq_none (show xs.length ≤ i.toNat by omega)]
  · rw [if_pos (show i < 0 by omega),
      if_neg (show ¬ (0:Int) ≤ i + xs.length by omega)]

theorem pyListGet_negWrap {α : Type} (xs : List α) (i : Int)
    (h1 : -(xs.length : Int) ≤ i) (h2 : i < 0) :
    pyListGet xs i = pyListGet xs (i + xs.length) := by
  simp only [pyListGet]
  rw [if_pos h2, if_neg (show ¬ (i + (xs.length : Int)) < 0 by omega)]

theorem pyListGet_nat {α : Type} (xs : List α) (k : Nat) (h : k < xs.length) :
    pyListGet xs (k : Int) = .ok xs[k] := by
  simp only [pyListGet]
  rw [if_neg (show ¬ (k : Int) < 0 by omega),
    if_pos (show (0:Int) ≤ (k : Int) by omega)]
  simp [List.getElem?_eq_getElem h]

theorem pyListGet_indexError_iff {α : Type} (xs : List α) (i : Int)
    (h : 0 ≤ i) :
    pyListGet xs i = .error .indexError ↔ (xs.length : Int) ≤ i := by
  simp only [pyListGet]
  rw [if_neg (show ¬ i < 0 by omega), if_pos h]
  rcases Nat.lt_or_ge i.toNat xs.length with hlt | hge
  · rw [List.getElem?_eq_getElem hlt]
    simp
    omega
  · rw [List.getElem?_eq_none hge]
    simp
    omega

theorem loadImagesSt_snd {Img : Type} (d : RadiologyDataset Img) (fs : Fs Img) :
    ∀ ps : List PyStr, (d.loadImagesSt fs ps).2 = d
  | [] => rfl
  | p :: ps => by
    unfold RadiologyDataset.loadImagesSt
    cases hp : fs.loadImage p with
    | none => rfl
    | some img =>
      have ih := loadImagesSt_snd d fs ps
      cases hr : d.loadImagesSt fs ps with
      | mk r d1 =>
        rw [hr] at ih
        cases r <;> simpa using ih

theorem parse_xmlSt_snd {Img : Type} (d : RadiologyDataset Img) (fs : Fs Img)
    (xml_file : PyStr) : (d.parse_xmlSt fs xml_file).2 = d := by
  unfold RadiologyDataset.parse_xmlSt
  cases fs.xmlFile xml_file <;> rfl

theorem loadImagesSt_fail {Img : Type} (d : RadiologyDataset Img)
    (fs : Fs Img) :
    ∀ ps : List PyStr, (∃ p ∈ ps, fs.loadImage p = none) →
      ∃ q ∈ ps, fs.loadImage q = none ∧
        (d.loadImagesSt fs ps).1 = .error (.imageError q)
  | [], h => by simp at h
  | p :: ps, h => by
    unfold RadiologyDataset.loadImagesSt
    cases hp : fs.loadImage p with
    | none => exact ⟨p, by simp, hp, rfl⟩
    | some img =>
      have hmem : ∃ q ∈ ps, fs.loadImage q = none := by
        rcases h with ⟨q, hq, hqn⟩
        rcases List.mem_cons.mp hq with rfl | hq'
        · rw [hp] at hqn; cases hqn
        · exact ⟨q, hq', hqn⟩
      rcases loadImagesSt_fail d fs ps hmem with ⟨q, hq, hqn, hres⟩
      refine ⟨q, List.mem_cons_of_mem _ hq, hqn, ?_⟩
      cases hr : d.loadImagesSt fs ps with
      | mk r d1 =>
        rw [hr] at hres
        simp at hres
        subst hres
        rfl

theorem getitemSt_ok {Img : Type} (d : RadiologyDataset Img) (fs : Fs Img)
    (idx : Int) (file : PyStr) (root : XmlNode)
    (h1 : pyListGet d.xml_files idx = .ok file)
    (h2 : fs.xmlFile file = some root) :
    d.getitemSt fs idx =
      match d.loadImagesSt fs (parseRoot d.image_dir root).image_paths with
      | (.error e, d2) => (.error e, d2)
      | (.ok images, d2) =>
        (.ok { images := images, report := (parseRoot d.image_dir root).report,
               metadata := (parseRoot d.image_dir root).metadata }, d2) := by
  unfold RadiologyDataset.getitemSt RadiologyDataset.parse_xmlSt
  rw [h1]
  dsimp only
  rw [h2]

theorem getitem_of_pyListGet_error {Img : Type} (d : RadiologyDataset Img)
    (fs : Fs Img) (idx : Int) (e : PyErr)
    (h : pyListGet d.xml_files idx = .error e) :
    d.getitem fs idx = .error e := by
  unfold RadiologyDataset.getitem RadiologyDataset.getitemSt
  rw [h]

theorem pyListGet_error_elim {α : Type} (xs : List α) (i : Int) (e : PyErr)
    (h : pyListGet xs i = .error e) : e = .indexError := by
  simp only [pyListGet] at h
  set j : Int := if i < 0 then i + xs.length else i with hj
  by_cases h0 : (0 : Int) ≤ j
  · rw [if_pos h0] at h
    cases hg : xs[j.toNat]? with
    | some a => rw [hg] at h; cases h
    | none => rw [hg] at h; exact (Except.error.inj h).symm
  · rw [if_neg h0] at h
    exact (Except.error.inj h).symm

theorem loadImagesSt_error_elim {Img : Type} (d : RadiologyDataset Img)
    (fs : Fs Img) :
    ∀ (ps : List PyStr) (e : PyErr), (d.loadImagesSt fs ps).1 = .error e →
      ∃ q, e = .imageError q
  | [], e, h => by simp [RadiologyDataset.loadImagesSt] at h
  | p :: ps, e, h => by
    unfold RadiologyDataset.loadImagesSt at h
    cases hp : fs.loadImage p with
    | none =>
      rw [hp] at h
      exact ⟨p, (Except.error.inj h).symm⟩
    | some img =>
      rw [hp] at h
      dsimp only at h
      cases hr : d.loadImagesSt fs ps with
      | mk r d1 =>
        rw [hr] at h
        cases r with
        | error e1 =>
          have he : e1 = e := Except.error.inj h
          rcases loadImagesSt_error_elim d fs ps e1 (by rw [hr]) with ⟨q, hq⟩
          exact ⟨q, he ▸ hq⟩
        | ok rest => cases h

theorem getitem_ne_indexError_of_ok {Img : Type} (d : RadiologyDataset Img)
    (fs : Fs Img) (idx : Int) (file : PyStr)
    (h : pyListGet d.xml_files idx = .ok file) :
    d.getitem fs idx ≠ .error .indexError := by
  unfold RadiologyDataset.getitem RadiologyDataset.getitemSt
      RadiologyDataset.parse_xmlSt
  rw [h]
  dsimp only
  cases hx : fs.xmlFile file with
  | none =>
    intro hc
    dsimp only at hc
    cases Except.error.inj hc
  | some root =>
    dsimp only
    cases hl : d.loadImagesSt fs (parseRoot d.image_dir root).image_paths with
    | mk r d2 =>
      cases r with
      | error e1 =>
        intro hc
        dsimp only at hc
        rcases loadImagesSt_error_elim d fs _ e1 (by rw [hl]) with ⟨q, hq⟩
        rw [Except.error.inj hc] at hq
        cases hq
      | ok images =>
        intro hc
        dsimp only at hc
        cases hc

/-- A minimal XML record: a root element with no text and no children. -/
def rootEmpty : XmlNode := .elem "eCitation".data none []

/-- A concrete environment in which every XML file parses to `rootEmpty`
and every image file loads (images modelled as `Unit`). -/
def fsTriv : Fs Unit :=
  { xmlFile := fun _ => some rootEmpty, loadImage := fun _ => some () }

/-- A concrete dataset built from a directory listing with exactly one
XML file. -/
def dsOne : RadiologyDataset Unit :=
  RadiologyDataset.init Unit "x".data "img".data none ["a.xml".data]

/-- Claim C1, counterexample: on a size-1 dataset the access operation at
the negative index `-1` does NOT fail with a bounds violation — Python
list indexing wraps negative indices, so it silently returns a sample. -/
theorem C1_counterexample :
    (-1 : Int) < 0 ∧
      dsOne.getitem fsTriv (-1) =
        .ok { images := [], report := [], metadata := [] } := by
  constructor
  · decide
  · rfl

/-- Claim C1 (amended): access fails with the distinct `IndexError`
condition exactly when the index is outside `[-size, size)`; a negative
index in `[-size, 0)` is resolved by Python negative indexing and
silently yields the same result as the in-range index `idx + size`. -/
theorem C1_bounds_amended {Img : Type} (d : RadiologyDataset Img)
    (fs : Fs Img) (idx : Int) :
    (((d.len : Int) ≤ idx ∨ idx < -(d.len : Int)) →
        d.getitem fs idx = .error .indexError) ∧
    (-(d.len : Int) ≤ idx → idx < 0 →
        d.getitem fs idx = d.getitem fs (idx + d.len)) := by
  constructor
  · intro h
    exact getitem_of_pyListGet_error d fs idx _ (pyListGet_oob _ _ h)
  · intro h1 h2
    unfold RadiologyDataset.getitem RadiologyDataset.getitemSt
    rw [pyListGet_negWrap d.xml_files idx h1 h2]
    rfl

/-- Witness for `C1_bounds_amended` at the concrete inputs `5` and `-1`
on a size-1 dataset. -/
theorem C1_bounds_amended_witness :
    (((dsOne.len : Int) ≤ 5 ∨ (5 : Int) < -(dsOne.len : Int)) ∧
        dsOne.getitem fsTriv 5 = .error .indexError) ∧
      ((-(dsOne.len : Int) ≤ -1 ∧ (-1 : Int) < 0) ∧
        dsOne.getitem fsTriv (-1) = dsOne.getitem fsTriv (-1 + dsOne.len)) :=
  ⟨⟨Or.inl (by decide), (C1_bounds_amended dsOne fsTriv 5).1 (Or.inl (by decide))⟩,
   ⟨⟨by decide, by decide⟩,
    (C1_bounds_amended dsOne fsTriv (-1)).2 (by decide) (by decide)⟩⟩

theorem getitemSt_snd {Img : Type} (d : RadiologyDataset Img) (fs : Fs Img)
    (idx : Int) : (d.getitemSt fs idx).2 = d := by
  unfold RadiologyDataset.getitemSt
  cases pyListGet d.xml_files idx with
  | error e => rfl
  | ok file =>
    dsimp only
    cases hp : d.parse_xmlSt fs file with
    | mk r d1 =>
      have hd1 : d1 = d := by
        have h := parse_xmlSt_snd d fs file
        rw [hp] at h
        exact h
      cases r with
      | error e => simpa using hd1
      | ok data =>
        dsimp only
        rw [hd1]
        cases hl : d.loadImagesSt fs data.image_paths with
        | mk r2 d2 =>
          have hd2 : d2 = d := by
            have h := loadImagesSt_snd d fs data.image_paths
            rw [hl] at h
            exact h
          cases r2 <;> simpa using hd2

/-- Claim C10: the access and parse operations leave the dataset state —
XML directory, image directory, transform and sorted file list —
unchanged, whether they return a sample or fail. -/
theorem C10_frame {Img : Type} (d : RadiologyDataset Img) (fs : Fs Img)
    (idx : Int) (xml_file : PyStr) :
    (d.getitemSt fs idx).2 = d ∧ (d.parse_xmlSt fs xml_file).2 = d ∧
      (d.getitemSt fs idx).2.xml_dir = d.xml_dir ∧
      (d.getitemSt fs idx).2.image_dir = d.image_dir ∧
      (d.getitemSt fs idx).2.transform = d.transform ∧
      (d.getitemSt fs idx).2.xml_files = d.xml_files := by
  have hmain := getitemSt_snd d fs idx
  exact ⟨hmain, parse_xmlSt_snd d fs xml_file, by rw [hmain], by rw [hmain],
    by rw [hmain], by rw [hmain]⟩

theorem init_xml_files {Img : Type} (xml_dir image_dir : PyStr)
    (transform : Option (Img → Img)) (listdir : List PyStr) :
    (RadiologyDataset.init Img xml_dir image_dir transform listdir).xml_files =
      List.insertionSort PyStrLeRel
        ((listdir.filter (fun f => pyEndsWith f ".xml".data)).map
          (fun f => osPathJoin xml_dir f)) := rfl

/-- Claim C5: `__len__` returns exactly the count of `.xml`-suffixed
files in the directory listing, and for nonnegative indices the access
operation raises `IndexError` exactly when the index is at least that
count (so the valid nonnegative indices are exactly `[0, size)`). -/
theorem C5_size {Img : Type} (xml_dir image_dir : PyStr)
    (transform : Option (Img → Img)) (listdir : List PyStr) (fs : Fs Img)
    (i : Int) (h : 0 ≤ i) :
    (RadiologyDataset.init Img xml_dir image_dir transform listdir).len =
        (listdir.filter (fun f => pyEndsWith f ".xml".data)).length ∧
      ((RadiologyDataset.init Img xml_dir image_dir transform
            listdir).getitem fs i = .error .indexError ↔
        ((RadiologyDataset.init Img xml_dir image_dir transform
            listdir).len : Int) ≤ i) := by
  set d := RadiologyDataset.init Img xml_dir image_dir transform listdir
    with hd
  have hln : d.len = d.xml_files.length := rfl
  have hlen : d.len =
      (listdir.filter (fun f => pyEndsWith f ".xml".data)).length := by
    rw [hln, hd, init_xml_files,
      (List.perm_insertionSort PyStrLeRel _).length_eq, List.length_map]
  refine ⟨hlen, ?_, ?_⟩
  · intro herr
    by_contra hlt
    push_neg at hlt
    have hk : i.toNat < d.xml_files.length := by omega
    have hget := pyListGet_nat d.xml_files i.toNat hk
    rw [show ((i.toNat : Nat) : Int) = i by omega] at hget
    exact getitem_ne_indexError_of_ok d fs i _ hget herr
  · intro hge
    exact getitem_of_pyListGet_error d fs i _
      (pyListGet_oob _ _ (Or.inl (by omega)))

/-- Witness for `C5_size` at a concrete listing with one `.xml` file, one
non-XML file, and index 0. -/
theorem C5_size_witness :
    (0 : Int) ≤ 0 ∧
      ((RadiologyDataset.init Unit "x".data "img".data none
            ["a.xml".data, "b.txt".data]).len =
          ((["a.xml".data, "b.txt".data] : List PyStr).filter
            (fun f => pyEndsWith f ".xml".data)).length ∧
        ((RadiologyDataset.init Unit "x".data "img".data none
              ["a.xml".data, "b.txt".data]).getitem fsTriv 0 =
            .error .indexError ↔
          ((RadiologyDataset.init Unit "x".data "img".data none
              ["a.xml".data, "b.txt".data]).len : Int) ≤ 0)) :=
  ⟨by decide,
    C5_size "x".data "img".data none ["a.xml".data, "b.txt".data] fsTriv 0
      (by decide)⟩

/-- Claim C6: construction stores exactly the `.xml`-suffixed files of
the directory listing, each joined onto the XML directory path, as a
sequence sorted lexicographically by full path; the listing is built once
— later accesses read the stored list and leave it unchanged. -/
theorem C6_enumeration {Img : Type} (xml_dir image_dir : PyStr)
    (transform : Option (Img → Img)) (listdir : List PyStr) :
    (RadiologyDataset.init Img xml_dir image_dir transform
        listdir).xml_files.Pairwise PyStrLeRel ∧
      (RadiologyDataset.init Img xml_dir image_dir transform
          listdir).xml_files.Perm
        ((listdir.filter (fun f => pyEndsWith f ".xml".data)).map
          (fun f => osPathJoin xml_dir f)) ∧
      ∀ (fs : Fs Img) (idx : Int),
        ((RadiologyDataset.init Img xml_dir image_dir transform
              listdir).getitemSt fs idx).2.xml_files =
          (RadiologyDataset.init Img xml_dir image_dir transform
              listdir).xml_files := by
  refine ⟨?_, ?_, ?_⟩
  · rw [init_xml_files]
    exact List.sorted_insertionSort PyStrLeRel _
  · rw [init_xml_files]
    exact List.perm_insertionSort PyStrLeRel _
  · intro fs idx
    rw [getitemSt_snd]

theorem lookup_single_eq {β : Type} (k : PyStr) (v : β) :
    List.lookup k [(k, v)] = some v := by
  simp [List.lookup]

theorem lookup_single_ne {β : Type} (k k' : PyStr) (v : β)
    (h : (k == k') = false) : List.lookup k [(k', v)] = none := by
  simp [List.lookup, h]

theorem pyLookup_append {β : Type} (k : PyStr) :
    ∀ l1 l2 : List (PyStr × β),
      List.lookup k (l1 ++ l2) = (List.lookup k l1).or (List.lookup k l2)
  | [], l2 => by simp
  | (k1, v1) :: l1, l2 => by
    cases h : (k == k1) with
    | true => simp [List.lookup, h]
    | false => simp [List.lookup, h, pyLookup_append k l1 l2]

theorem titleMeta_lookup_ad (root : XmlNode) :
    List.lookup "article_date".data (titleMeta root) = none := by
  unfold titleMeta
  cases root.findDesc "ArticleTitle".data with
  | none => rfl
  | some te =>
    dsimp only
    cases te.text with
    | none => rfl
    | some t =>
      dsimp only
      by_cases he : t.isEmpty = true
      · rw [if_pos he]
        rfl
      · rw [if_neg he]
        exact lookup_single_ne _ _ _ (by decide)

theorem specialtyMeta_lookup_ad (root : XmlNode) :
    List.lookup "article_date".data (specialtyMeta root) = none := by
  unfold specialtyMeta
  cases root.findDesc "specialty".data with
  | none => rfl
  | some se =>
    dsimp only
    cases se.text with
    | none => rfl
    | some t =>
      dsimp only
      by_cases he : t.isEmpty = true
      · rw [if_pos he]
        rfl
      · rw [if_neg he]
        exact lookup_single_ne _ _ _ (by decide)

theorem metadata_lookup_article_date (image_dir : PyStr) (root : XmlNode) :
    List.lookup "article_date".data (parseRoot image_dir root).metadata =
      (root.findDesc "ArticleDate".data).map (fun ad =>
        pyStripDash
          (dateField ad "Year".data ++ '-' ::
            (dateField ad "Month".data ++ '-' :: dateField ad "Day".data))) := by
  show List.lookup "article_date".data
      (dateMeta root ++ titleMeta root ++ specialtyMeta root) = _
  rw [pyLookup_append, pyLookup_append, titleMeta_lookup_ad,
    specialtyMeta_lookup_ad]
  unfold dateMeta
  cases root.findDesc "ArticleDate".data with
  | none => rfl
  | some ad =>
    dsimp only
    rw [lookup_single_eq]
    rfl

/-- The `ArticleDate` element of the C2 counterexample: it contains a
`Year` sub-element that is present but holds no text. -/
def adC2 : XmlNode :=
  .elem "ArticleDate".data none [.elem "Year".data none []]

/-- An XML record whose article-date element has a present-but-textless
`Year` sub-element. -/
def rootDateNoneYear : XmlNode := .elem "eCitation".data none [adC2]

/-- Claim C2, counterexample: for a record whose `Year` sub-element is
present but has no text, the code composes the date from Python's
rendering of `None`, so the metadata date is the non-empty placeholder
string `"None"` — not the empty string the claim requires. -/
theorem C2_counterexample :
    parseRoot "img".data rootDateNoneYear =
      { report := [],
        metadata := [("article_date".data, "None".data)],
        image_paths := [] } ∧
      ("None".data : PyStr) ≠ [] := by
  constructor
  · rfl
  · decide

/-- Claim C2 (amended): a record without an article-date element gets no
date key; with one, the date key holds the hyphen-stripped composition of
the three sub-field values, where a sub-field is the empty string only
when its sub-element is absent, the element's text when present with
text, and the Python placeholder string `"None"` when the sub-element is
present without text; the parse itself never fails on such input. -/
theorem C2_date_amended (image_dir : PyStr) (root : XmlNode) :
    (root.findDesc "ArticleDate".data = none →
        List.lookup "article_date".data
          (parseRoot image_dir root).metadata = none) ∧
    (∀ ad, root.findDesc "ArticleDate".data = some ad →
        List.lookup "article_date".data (parseRoot image_dir root).metadata =
          some (pyStripDash
            (dateField ad "Year".data ++ '-' ::
              (dateField ad "Month".data ++ '-' ::
                dateField ad "Day".data)))) ∧
    (∀ (ad : XmlNode) (tag : PyStr), ad.find tag = none →
        dateField ad tag = []) ∧
    (∀ (ad : XmlNode) (tag : PyStr) (e : XmlNode), ad.find tag = some e →
        e.text = none → dateField ad tag = "None".data) ∧
    (∀ (ad : XmlNode) (tag : PyStr) (e : XmlNode) (t : PyStr),
        ad.find tag = some e → e.text = some t → dateField ad tag = t) := by
  refine ⟨?_, ?_, ?_, ?_, ?_⟩
  · intro h
    rw [metadata_lookup_article_date, h]
    rfl
  · intro ad h
    rw [metadata_lookup_article_date, h]
    rfl
  · intro ad tag h
    unfold dateField
    rw [h]
  · intro ad tag e h ht
    unfold dateField
    rw [h]
    dsimp only
    rw [ht]
    rfl
  · intro ad tag e t h ht
    unfold dateField
    rw [h]
    dsimp only
    rw [ht]
    rfl

/-- Witness for `C2_date_amended` on the concrete record whose `Year`
sub-element is present without text: the date key holds `"None"`. -/
theorem C2_date_amended_witness :
    (rootDateNoneYear.findDesc "ArticleDate".data = some adC2 ∧
        List.lookup "article_date".data
            (parseRoot "img".data rootDateNoneYear).metadata =
          some (pyStripDash
            (dateField adC2 "Year".data ++ '-' ::
              (dateField adC2 "Month".data ++ '-' ::
                dateField adC2 "Day".data)))) ∧
      (adC2.find "Year".data = some (.elem "Year".data none []) ∧
        dateField adC2 "Year".data = "None".data) :=
  ⟨⟨rfl, (C2_date_amended "img".data rootDateNoneYear).2.1 adC2 rfl⟩,
    ⟨rfl, (C2_date_amended "img".data rootDateNoneYear).2.2.2.1 adC2
      "Year".data (.elem "Year".data none []) rfl rfl⟩⟩

theorem reportPieces_eq :
    ∀ l : List XmlNode,
      l.filterMap (fun c =>
          match c.text with
          | some t => if t.isEmpty then none else some (pyStrip t)
          | none => none) =
        (l.filter (fun c => pyTruthy c.text)).map
          (fun c => pyStrip (c.text.getD []))
  | [] => rfl
  | c :: l => by
    rw [List.filterMap_cons, List.filter_cons]
    cases ht : c.text with
    | none =>
      simp only [ht, pyTruthy, Bool.false_eq_true, if_false]
      exact reportPieces_eq l
    | some t =>
      by_cases he : t.isEmpty = true
      · simp only [ht, pyTruthy, he, Bool.not_true, Bool.false_eq_true,
          if_false, if_true]
        exact reportPieces_eq l
      · have hcond : pyTruthy (some t) = true := by simp [pyTruthy, he]
        dsimp only
        rw [if_neg he, if_pos hcond]
        dsimp only
        rw [List.map_cons, reportPieces_eq l]
        rw [ht]
        rfl

/-- An XML record whose abstract container holds two abstract-text
children with texts `"A"` and `"B"`, nested below the root as in the
OpenI records. -/
def rootAB : XmlNode :=
  .elem "eCitation".data none
    [.elem "MedlineCitation".data none
      [.elem "Article".data none
        [.elem "Abstract".data none
          [.elem "AbstractText".data (some "A".data) [],
           .elem "AbstractText".data (some "B".data) []]]]]

/-- Claim C3: the parsed report equals the single-space join of the
stripped non-empty texts of the ordered abstract-text children of the
abstract container; two children `"A"` and `"B"` give exactly `"A B"`,
and absence of the container or of truthy text children gives the empty
string. -/
theorem C3_report (image_dir : PyStr) (root : XmlNode) :
    (parseRoot image_dir root).report = specReport root ∧
      (root.findDesc "Abstract".data = none →
        (parseRoot image_dir root).report = []) ∧
      (∀ abstract, root.findDesc "Abstract".data = some abstract →
        (abstract.findall "AbstractText".data).filter
            (fun c => pyTruthy c.text) = [] →
        (parseRoot image_dir root).report = []) ∧
      (parseRoot "img".data rootAB).report = "A B".data := by
  have hmain : ∀ r : XmlNode, reportOf r = specReport r := by
    intro r
    unfold reportOf specReport
    cases r.findDesc "Abstract".data with
    | none => rfl
    | some abstract =>
      dsimp only
      rw [reportPieces_eq]
  refine ⟨hmain root, ?_, ?_, ?_⟩
  · intro h
    show reportOf root = []
    unfold reportOf
    rw [h]
    rfl
  · intro abstract h hempty
    show reportOf root = []
    rw [hmain root]
    unfold specReport
    rw [h]
    dsimp only
    rw [hempty]
    rfl
  · rfl

/-- Witness for `C3_report` on concrete records: the two-child record and
an abstract container whose only text child is empty. -/
theorem C3_report_witness :
    ((parseRoot "img".data rootAB).report = specReport rootAB ∧
        (parseRoot "img".data rootAB).report = "A B".data) ∧
      ((XmlNode.elem "r".data none
            [.elem "Abstract".data none
              [.elem "AbstractText".data (some [] : Option PyStr) []]]).findDesc
          "Abstract".data =
            some (.elem "Abstract".data none
              [.elem "AbstractText".data (some [] : Option PyStr) []]) ∧
        (parseRoot "img".data
          (.elem "r".data none
            [.elem "Abstract".data none
              [.elem "AbstractText".data (some [] : Option PyStr) []]])).report = []) :=
  ⟨⟨(C3_report "img".data rootAB).1, (C3_report "img".data rootAB).2.2.2⟩,
    ⟨rfl,
      (C3_report "img".data
          (.elem "r".data none
            [.elem "Abstract".data none
              [.elem "AbstractText".data (some [] : Option PyStr) []]])).2.2.1
        (.elem "Abstract".data none
          [.elem "AbstractText".data (some [] : Option PyStr) []]) rfl
        rfl⟩⟩

/-- An XML record with a single top-level parent-image element whose
panel URL is `http://x/y/IMG001.png`. -/
def rootOneImage : XmlNode :=
  .elem "eCitation".data none
    [.elem "parentImage".data none
      [.elem "panel".data none
        [.elem "url".data (some "http://x/y/IMG001.png".data) []]]]

/-- Claim C4: the parsed image-path list has, in document order, one
entry per top-level parent-image element with a panel and a non-empty
panel URL — the image directory joined with the basename of the stripped
URL text; a URL `http://x/y/IMG001.png` resolves to basename
`IMG001.png`, and a record with zero parent-image elements yields a
sample with an empty image list and no error. -/
theorem C4_image_paths (image_dir : PyStr) (root : XmlNode) :
    (parseRoot image_dir root).image_paths = specImagePaths image_dir root ∧
      (root.findall "parentImage".data = [] →
        (parseRoot image_dir root).image_paths = []) ∧
      osPathBasename (pyStrip "http://x/y/IMG001.png".data) =
        "IMG001.png".data ∧
      (parseRoot "imgdir".data rootOneImage).image_paths =
        ["imgdir/IMG001.png".data] ∧
      (∀ (Img : Type) (d : RadiologyDataset Img) (fs : Fs Img) (idx : Int)
          (file : PyStr),
        pyListGet d.xml_files idx = .ok file →
        fs.xmlFile file = some root →
        root.findall "parentImage".data = [] →
        d.getitem fs idx =
          .ok { images := [], report := (parseRoot d.image_dir root).report,
                metadata := (parseRoot d.image_dir root).metadata }) := by
  refine ⟨?_, ?_, ?_, ?_, ?_⟩
  · show imagePathsOf image_dir root = specImagePaths image_dir root
    unfold imagePathsOf specImagePaths
    have hfe :
        (fun parent : XmlNode =>
          match parent.find "panel".data with
          | none => none
          | some panel =>
            match panel.find "url".data with
            | none => none
            | some url =>
              match url.text with
              | none => none
              | some t =>
                if t.isEmpty then none
                else
                  some (osPathJoin image_dir (osPathBasename (pyStrip t)))) =
        (fun parent : XmlNode =>
          (parent.find "panel".data).bind fun panel =>
            (panel.find "url".data).bind fun url =>
              if pyTruthy url.text then
                some (osPathJoin image_dir
                  (osPathBasename (pyStrip (url.text.getD []))))
              else none) := by
      funext parent
      cases parent.find "panel".data with
      | none => rfl
      | some panel =>
        dsimp only [Option.bind]
        cases panel.find "url".data with
        | none => rfl
        | some url =>
          dsimp only
          cases url.text with
          | none => rfl
          | some t =>
            dsimp only [pyTruthy]
            by_cases he : t.isEmpty = true
            · rw [if_pos he, if_neg (by simp [he])]
            · rw [if_neg he, if_pos (by simp [he])]
              rfl
    rw [hfe]
  · intro h
    show imagePathsOf image_dir root = []
    unfold imagePathsOf
    rw [h]
    rfl
  · rfl
  · rfl
  · intro Img d fs idx file h1 h2 h3
    have hpaths : (parseRoot d.image_dir root).image_paths = [] := by
      show imagePathsOf d.image_dir root = []
      unfold imagePathsOf
      rw [h3]
      rfl
    have e := getitemSt_ok d fs idx file root h1 h2
    unfold RadiologyDataset.getitem
    rw [e, hpaths]
    rfl

/-- Witness for `C4_image_paths` at the one-image record and at a record
with zero parent-image elements, through a full access. -/
theorem C4_image_paths_witness :
    ((parseRoot "imgdir".data rootOneImage).image_paths =
        specImagePaths "imgdir".data rootOneImage ∧
      (parseRoot "imgdir".data rootOneImage).image_paths =
        ["imgdir/IMG001.png".data]) ∧
      (rootEmpty.findall "parentImage".data = [] ∧
        dsOne.getitem fsTriv 0 =
          .ok { images := [],
                report := (parseRoot dsOne.image_dir rootEmpty).report,
                metadata := (parseRoot dsOne.image_dir rootEmpty).metadata }) :=
  ⟨⟨(C4_image_paths "imgdir".data rootOneImage).1,
      (C4_image_paths "imgdir".data rootOneImage).2.2.2.1⟩,
    ⟨rfl,
      (C4_image_paths "imgdir".data rootEmpty).2.2.2.2 Unit dsOne fsTriv 0
        "x/a.xml".data rfl rfl rfl⟩⟩

/-- Claim C7: the report and metadata of an accessed sample are a pure
function of the XML file's contents — two accesses of the same valid
index, even through environments that may differ elsewhere, yield equal
report text and equal metadata whenever they agree on that one file. -/
theorem C7_parse_deterministic {Img : Type} (d : RadiologyDataset Img)
    (fs fs' : Fs Img) (idx : Int) (file : PyStr) (s s' : Sample Img)
    (h1 : pyListGet d.xml_files idx = .ok file)
    (h2 : fs.xmlFile file = fs'.xmlFile file)
    (h3 : d.getitem fs idx = .ok s) (h4 : d.getitem fs' idx = .ok s') :
    s.report = s'.report ∧ s.metadata = s'.metadata := by
  cases hx : fs.xmlFile file with
  | none =>
    exfalso
    unfold RadiologyDataset.getitem RadiologyDataset.getitemSt
        RadiologyDataset.parse_xmlSt at h3
    rw [h1] at h3
    dsimp only at h3
    rw [hx] at h3
    cases h3
  | some root =>
    have hx' : fs'.xmlFile file = some root := by rw [← h2, hx]
    have e3 := getitemSt_ok d fs idx file root h1 hx
    have e4 := getitemSt_ok d fs' idx file root h1 hx'
    unfold RadiologyDataset.getitem at h3 h4
    rw [e3] at h3
    rw [e4] at h4
    cases hl : d.loadImagesSt fs (parseRoot d.image_dir root).image_paths with
    | mk r d2 =>
      rw [hl] at h3
      cases r with
      | error e => cases h3
      | ok images =>
        dsimp only at h3
        cases hl' : d.loadImagesSt fs'
            (parseRoot d.image_dir root).image_paths with
        | mk r' d2' =>
          rw [hl'] at h4
          cases r' with
          | error e => cases h4
          | ok images' =>
            dsimp only at h4
            have hs := Except.ok.inj h3
            have hs' := Except.ok.inj h4
            rw [← hs, ← hs']
            exact ⟨rfl, rfl⟩

/-- The empty sample produced by the trivial environment. -/
def sEmpty : Sample Unit := { images := [], report := [], metadata := [] }

/-- Witness for `C7_parse_deterministic` at index 0 of the concrete
size-1 dataset with the trivial environment on both sides. -/
theorem C7_parse_deterministic_witness :
    (pyListGet dsOne.xml_files 0 = .ok "x/a.xml".data ∧
        fsTriv.xmlFile "x/a.xml".data = fsTriv.xmlFile "x/a.xml".data ∧
        dsOne.getitem fsTriv 0 = .ok sEmpty ∧
        dsOne.getitem fsTriv 0 = .ok sEmpty) ∧
      (sEmpty.report = sEmpty.report ∧ sEmpty.metadata = sEmpty.metadata) :=
  ⟨⟨rfl, rfl, rfl, rfl⟩,
    C7_parse_deterministic dsOne fsTriv fsTriv 0 "x/a.xml".data
      sEmpty sEmpty rfl rfl rfl rfl⟩

/-- Claim C8: the non-augmenting transform is exactly resize to the fixed
square 224×224, tensor conversion, then per-channel normalization with
means [0.485, 0.456, 0.406] and standard deviations [0.229, 0.224,
0.225]; it consumes no randomness, so two applications to the identical
input — under any interpretation of the primitive image operations and
any two randomness streams — produce identical outputs. -/
theorem C8_plain_transform :
    get_transforms false =
      [.resize 224 224, .toTensor,
        .normalize [485/1000, 456/1000, 406/1000]
          [229/1000, 224/1000, 225/1000]] ∧
      ∀ (Img R : Type) (I : Interp Img R) (g g' : ℕ → R) (img : Img),
        applyPipeline I g (get_transforms false) img =
          applyPipeline I g' (get_transforms false) img :=
  ⟨rfl, fun _ _ _ _ _ _ => rfl⟩

/-- Claim C9: when any image path of a valid record fails to load, the
access operation fails with an image I/O error that propagates to the
caller — it never returns a sample, in particular no partial sample with
only the successfully loaded images. -/
theorem C9_image_failure {Img : Type} (d : RadiologyDataset Img)
    (fs : Fs Img) (idx : Int) (file : PyStr) (root : XmlNode) (p : PyStr)
    (h1 : pyListGet d.xml_files idx = .ok file)
    (h2 : fs.xmlFile file = some root)
    (h3 : p ∈ (parseRoot d.image_dir root).image_paths)
    (h4 : fs.loadImage p = none) :
    (∃ q, fs.loadImage q = none ∧
        d.getitem fs idx = .error (.imageError q)) ∧
      ∀ s, d.getitem fs idx ≠ .ok s := by
  rcases loadImagesSt_fail d fs _ ⟨p, h3, h4⟩ with ⟨q, hqmem, hqn, hres⟩
  have e := getitemSt_ok d fs idx file root h1 h2
  have hget : d.getitem fs idx = .error (.imageError q) := by
    unfold RadiologyDataset.getitem
    rw [e]
    cases hl : d.loadImagesSt fs (parseRoot d.image_dir root).image_paths with
    | mk r d2 =>
      rw [hl] at hres
      dsimp only at hres
      rw [hres]
  refine ⟨⟨q, hqn, hget⟩, fun s hc => ?_⟩
  rw [hget] at hc
  cases hc

/-- An environment whose XML files all parse to the one-image record and
whose image files never load. -/
def fsNoImg : Fs Unit :=
  { xmlFile := fun _ => some rootOneImage, loadImage := fun _ => none }

/-- Witness for `C9_image_failure`: the one-image record with a missing
image file makes the whole access fail. -/
theorem C9_image_failure_witness :
    (pyListGet dsOne.xml_files 0 = .ok "x/a.xml".data ∧
        fsNoImg.xmlFile "x/a.xml".data = some rootOneImage ∧
        "img/IMG001.png".data ∈
          (parseRoot dsOne.image_dir rootOneImage).image_paths ∧
        fsNoImg.loadImage "img/IMG001.png".data = none) ∧
      ((∃ q, fsNoImg.loadImage q = none ∧
          dsOne.getitem fsNoImg 0 = .error (.imageError q)) ∧
        ∀ s, dsOne.getitem fsNoImg 0 ≠ .ok s) :=
  ⟨⟨rfl, rfl, by decide, rfl⟩,
    C9_image_failure dsOne fsNoImg 0 "x/a.xml".data rootOneImage
      "img/IMG001.png".data rfl rfl (by decide) rfl⟩
